import Mathlib

/-!
# Verification of the `transform` repository

A shallow embedding of `src/python/transform/transform.py` (the runtime
`Transform` class decorator and its companion registries) and of
`src/python/transform/mypy_plugin/transform_plugin.py` (the static-checker
plugin), together with theorems settling the frozen claims about them.

Python values that matter to the decorator are modelled symbolically: a
prototype member is an opaque object carrying its type's fully qualified
name, a function/method, an attribute-maker output, an instance of a
transformed class, or a prototype (attrs) instance with named fields.
-/

namespace Transform

/-- Symbolic Python values as the decorator observes them.

* `atom tn k`  — an opaque object whose type's fully qualified name
  (`GetClassName(type(v))`) is `tn`; `k` distinguishes distinct objects.
* `fn`        — a function or method (`types.FunctionType` / `types.MethodType`).
* `made nm v` — the output of the user-supplied attribute maker, called with
  node name `nm` (present exactly when the maker takes a `name` parameter)
  and the prototype member value `v`.  Its `Get()` method returns `v`,
  which is the behaviour the spec assumes of attribute makers.
* `inst c v n` — an instance of the transformed class registered under
  qualified name `c`, constructed as `memberClass(v, n)`.

An instance of an attrs prototype class (an `atom` seen from outside, with
its fields visible to `getattr`) is modelled separately by `ProtoValue`. -/
inductive PyValue : Type where
  | atom (typeName : String) (payload : Nat) : PyValue
  | fn : PyValue
  | made (nodeName : Option String) (arg : PyValue) : PyValue
  | inst (clsQualName : String) (arg : PyValue) (instName : String) : PyValue
  deriving Repr, DecidableEq

/-- `GetClassName(type(v))`: the fully qualified name of a value's type. -/
def PyValue.typeName : PyValue → String
  | .atom tn _ => tn
  | .fn => "builtins.function"
  | .made _ _ => "<attribute-maker-output>"
  | .inst c _ _ => c

/-- `type(v) in (types.MethodType, types.FunctionType)`. -/
def PyValue.isFunction : PyValue → Bool
  | .fn => true
  | _ => false

/-- The `Get()` method called by `GetProtoType`: attribute-maker outputs
return the value they were constructed with (the spec's assumption about
makers); no other value modelled here has a `Get` method, so the call
fails (`none`). -/
def PyValue.get : PyValue → Option PyValue
  | .made _ v => some v
  | _ => none

/-- `name.startswith("_")`, written on the character list so that concrete
instances evaluate by kernel reduction. -/
def startsUnderscore (s : String) : Bool :=
  s.data.head? == some '_'

/-- Association-list lookup, modelling Python `dict.get(key, None)`
and `getattr`-style name resolution. -/
def alookup {α : Type} : List (String × α) → String → Option α
  | [], _ => none
  | (k, v) :: r, n => if k = n then some v else alookup r n

/-- An instance of an attrs prototype class: the class's fully qualified
name (`GetClassName(type(p))`) and the named field values (attrs compares
instances field by field, so equality is structural). -/
structure ProtoValue : Type where
  typeName : String
  fields : List (String × PyValue)
  deriving Repr, DecidableEq

/-- `getattr(p, name)` on a prototype (attrs) instance; `none` models an
`AttributeError`. -/
def pyGetAttr (p : ProtoValue) (n : String) : Option PyValue :=
  alookup p.fields n

/-- A prototype class, as the decorator introspects it:
its fully qualified name (`GetClassName`), the `dir()` listing paired with
the class-level values `getattr` would return, and the attrs field names
(`attr.fields_dict(protoType)` keys, in field-definition order). -/
structure ProtoClass : Type where
  qualName : String
  dirMembers : List (String × PyValue)
  attrsFields : List String
  deriving Repr, DecidableEq

/-- The decorated class before `Transform.__call__` mutates it:
just its `__name__` and qualified name. -/
structure InputCls : Type where
  name : String
  qualName : String
  deriving Repr, DecidableEq

/-- The transformed class produced by `Transform.__call__`: the class-level
member attributes it set, `__transform_all_vars__`, `__transform_vars__`,
whether an `__init__` was generated, and the prototype it came from. -/
structure TClass : Type where
  name : String
  qualName : String
  memberAttrs : List (String × PyValue)
  transformAllVars : List String
  transformVars : List String
  hasInit : Bool
  protoQualName : String
  deriving Repr, DecidableEq

/-- The global registry `Transform.classByProtoTypeName`. -/
abbrev Registry : Type := List (String × TClass)

/-- `MakeNodeName` (transform.py:103-109): the dotted node name built from
the decorated class's `__name__`, the optional instance name, and the
member name. -/
def mkNodeName (clsName name : String) : Option String → String
  | some instanceName => clsName ++ "." ++ instanceName ++ "." ++ name
  | none => clsName ++ "." ++ name

/-- `TransformMember` (transform.py:101-131), with `getattr(protoType, name)`
already resolved to `v`: when the maker takes a `name` parameter it is called
with the dotted node name and the value; otherwise the instance name is
ignored and the maker is called with the value alone. -/
def transformMember (hasName : Bool) (clsName name : String)
    (instanceName : Option String) (v : PyValue) : PyValue :=
  if hasName then .made (some (mkNodeName clsName name instanceName)) v
  else .made none v

/-- The value assigned for one class-level member in the `dir()` loop
(transform.py:159-174): a member whose type is already registered is
replaced by the registered transformed class constructed from the member's
value and its name; otherwise by the attribute maker's output. -/
def classMemberValue (reg : Registry) (hasName : Bool) (clsName name : String)
    (v : PyValue) : PyValue :=
  match alookup reg v.typeName with
  | some mc => .inst mc.qualName v name
  | none => transformMember hasName clsName name none v

/-- The `for name in dir(self.protoType_)` loop (transform.py:142-176):
skips underscore names, attrs fields and functions/methods, and returns the
attributes set together with the accumulated `classVars` list. -/
def classLoop (reg : Registry) (hasName : Bool) (clsName : String)
    (attrsFields : List String) :
    List (String × PyValue) → List (String × PyValue) × List String
  | [] => ([], [])
  | (n, v) :: rest =>
    if startsUnderscore n ∨ n ∈ attrsFields ∨ v.isFunction then
      classLoop reg hasName clsName attrsFields rest
    else
      ((n, classMemberValue reg hasName clsName n v) ::
          (classLoop reg hasName clsName attrsFields rest).1,
        n :: (classLoop reg hasName clsName attrsFields rest).2)

/-- `Transform.__call__` (transform.py:99-232): transforms the decorated
class in place and records it in `classByProtoTypeName` under the
prototype's fully qualified name. -/
def transformCall (pt : ProtoClass) (hasName init : Bool) (cls : InputCls)
    (reg : Registry) : TClass × Registry :=
  let tc : TClass :=
    { name := cls.name
      qualName := cls.qualName
      memberAttrs := (classLoop reg hasName cls.name pt.attrsFields pt.dirMembers).1
      transformAllVars := (classLoop reg hasName cls.name pt.attrsFields pt.dirMembers).2
      transformVars := pt.attrsFields
      hasInit := init
      protoQualName := pt.qualName }
  (tc, (pt.qualName, tc) :: reg)

/-- The value assigned for one instance variable in the generated
`__init__` (transform.py:191-212): a member whose type is registered is
replaced by the registered class constructed from the member's value using
the prefix-dotted member name; otherwise by `TransformMember` with the
name prefix. -/
def initMemberValue (reg : Registry) (hasName : Bool) (clsName name : String)
    (namePfx : Option String) (v : PyValue) : PyValue :=
  match alookup reg v.typeName with
  | some mc =>
    .inst mc.qualName v
      (match namePfx with
       | some pfx => pfx ++ "." ++ name
       | none => name)
  | none => transformMember hasName clsName name namePfx v

/-- The generated `__init__` (transform.py:186-218): iterates the recorded
instance variables, reading each from the prototype value; `none` models an
`AttributeError` from `getattr`. Returns the instance attributes set. -/
def transformInit (pt : ProtoClass) (hasName : Bool) (clsName : String)
    (reg : Registry) (p : ProtoValue) (namePfx : Option String) :
    Option (List (String × PyValue)) :=
  pt.attrsFields.mapM fun n =>
    (pyGetAttr p n).map fun v =>
      (n, initMemberValue reg hasName clsName n namePfx v)

/-- `GetProtoType` (transform.py:220-227): calls `Get()` on each recorded
instance variable of the instance and constructs a prototype value from the
results via `protoType_(**values)` (attrs builds the fields in
field-definition order). -/
def GetProtoType (pt : ProtoClass) (instAttrs : List (String × PyValue)) :
    Option ProtoValue :=
  (pt.attrsFields.mapM fun n =>
      ((alookup instAttrs n).bind PyValue.get).map fun v => (n, v)).map
    fun fields => ⟨pt.qualName, fields⟩

/-- A class handed to `RegisterModel`: its fully qualified name, whether its
immediate base class (`class_.__base__`) is `object`, and otherwise that
base class's fully qualified name. -/
structure ModelClass : Type where
  qualName : String
  baseIsObject : Bool
  baseQualName : String
  deriving Repr, DecidableEq

/-- The global registry `modelByInterfaceName`. -/
abbrev ModelRegistry : Type := List (String × ModelClass)

/-- `RegisterModel` (transform.py:239-251): refuses a class whose immediate
base is `object` (raising `ValueError`), otherwise registers the class under
its base class's fully qualified name and returns it unchanged. -/
def RegisterModel (class_ : ModelClass) (mreg : ModelRegistry) :
    Except String (ModelClass × ModelRegistry) :=
  if class_.baseIsObject then
    .error "The model must be a child class of the interface."
  else
    .ok (class_, (class_.baseQualName, class_) :: mreg)

/-- `GetMemberModel` (transform.py:262-279): looks the member's type up in
`classByProtoTypeName`; unregistered member types yield `None`, a registered
interface without a model in `modelByInterfaceName` raises `RuntimeError`,
and otherwise the registered model class is returned.  An absent member
raises `AttributeError` from `getattr` (modelled by the first error). -/
def GetMemberModel (reg : Registry) (mreg : ModelRegistry) (p : ProtoValue)
    (name : String) : Except String (Option ModelClass) :=
  match pyGetAttr p name with
  | none => .error "AttributeError"
  | some v =>
    match alookup reg v.typeName with
    | none => .ok none
    | some memberInterface =>
      match alookup mreg memberInterface.qualName with
      | none =>
        .error "Member interface is transformed without a registered model."
      | some memberModel => .ok (some memberModel)

/-- The first parameter name of an attribute maker, as `GetHasName`
inspects it: for a class, the parameters of its `__init__` (which start
with `self`); for a plain callable, its own parameters. -/
inductive MakerDescr : Type where
  | cls (initParams : List String) : MakerDescr
  | callable (params : List String) : MakerDescr
  deriving Repr, DecidableEq

/-- `GetHasName` (transform.py:36-50): true when the first parameter of the
maker (for a class, of its `__init__`) is named `name`. -/
def GetHasName : MakerDescr → Bool
  | .cls initParams => initParams.head? == some "name"
  | .callable params => params.head? == some "name"

end Transform

namespace Plugin

/-!
Shallow embedding of `mypy_plugin/transform_plugin.py`.  The mypy symbol
objects are modelled by what the plugin reads of them: a `TypeInfo` is a
fully qualified name, a short name, and a symbol table; a table entry is a
nested `TypeInfo`, a `Decorator` (with its classmethod flag and the class
of its variable), or some other node.
-/

mutual
/-- A mypy `TypeInfo`: `fullname`, `name`, and `names` (its symbol table). -/
inductive BTI : Type where
  | mk : String → String → List (String × BNode) → BTI

/-- A node found in a `TypeInfo`'s symbol table, as `lookup_member_expr`
distinguishes them. -/
inductive BNode : Type where
  | ti : BTI → BNode
  | dec : Bool → BTI → BNode
  | otherNode : BNode
end

/-- `TypeInfo.fullname`. -/
def BTI.fullname : BTI → String
  | .mk f _ _ => f

/-- `TypeInfo.name`. -/
def BTI.name : BTI → String
  | .mk _ n _ => n

/-- `TypeInfo.names`. -/
def BTI.names : BTI → List (String × BNode)
  | .mk _ _ ns => ns

/-- The exceptions the callback can let escape. -/
inductive PErr : Type where
  | attributeError : PErr
  | lookupMemberError : PErr
  | nameError : PErr
  deriving Repr, DecidableEq

/-- A `MemberExpr` argument together with the api lookup the plugin performs
on it: `lookedUp` is `context.api.lookup_fully_qualified_or_none(node.expr.fullname)`
(`none` when the api returns `None`), `nodeName` is `node.name`. -/
structure MExpr : Type where
  lookedUp : Option BTI
  nodeName : String

/-- `lookup_member_expr` (transform_plugin.py:39-66).  A `None` api result
makes `nodeType.node.name` raise `AttributeError`; a name absent from the
symbol table, a non-`Decorator` non-`TypeInfo` node, and a non-classmethod
decorator all raise `LookupMemberError`. -/
def lookupMemberExpr (m : MExpr) : Except PErr BTI :=
  match m.lookedUp with
  | none => .error .attributeError
  | some nodeType =>
    if nodeType.name = m.nodeName then .ok nodeType
    else
      match Transform.alookup nodeType.names m.nodeName with
      | none => .error .lookupMemberError
      | some (.ti member) => .ok member
      | some (.dec isClassmethod info) =>
        if isClassmethod then .ok info else .error .lookupMemberError
      | some .otherNode => .error .lookupMemberError

/-- The return type of a `FuncDef` attribute maker, as the callback
classifies it (transform_plugin.py:118-134). -/
inductive FRet : Type where
  | instanceTy : BTI → FRet
  | unbound : FRet
  | otherRet : FRet

/-- What `attribute_type_node` can resolve to: a `TypeInfo`, a `FuncDef`
with a return type, or some other node. -/
inductive ANode : Type where
  | ti : BTI → ANode
  | funcDef : FRet → ANode
  | otherN : ANode

/-- The `proto_type` argument expression: its `.node` and, when it is a
`MemberExpr`, the lookup data. -/
inductive ProtoExpr : Type where
  | memberExpr : Option BTI → MExpr → ProtoExpr
  | otherExpr : Option BTI → ProtoExpr

/-- `proto_type.node`. -/
def ProtoExpr.node : ProtoExpr → Option BTI
  | .memberExpr n _ => n
  | .otherExpr n => n

/-- The `attribute_type` argument expression.  For a `CallExpr` the callback
immediately dereferences `callee.node.names['__call__'].node.type.ret_type.type`
(transform_plugin.py:81-84); `none` models any unresolved link in that
chain, which raises `AttributeError`. -/
inductive AttrExpr : Type where
  | callExpr : Option BTI → AttrExpr
  | memberExpr : Option ANode → MExpr → AttrExpr
  | otherExpr : Option ANode → AttrExpr

/-- Computing `attribute_type_node` from the argument expression
(transform_plugin.py:81-86). -/
def attrNodeOf : AttrExpr → Except PErr (Option ANode)
  | .callExpr none => .error .attributeError
  | .callExpr (some t) => .ok (some (.ti t))
  | .memberExpr n _ => .ok n
  | .otherExpr n => .ok n

/-- What the callback does to the decorated class. -/
inductive CbOutcome : Type where
  | deferred : CbOutcome
  | printedReturn : String → CbOutcome
  | transformed : BTI → BTI → Bool → CbOutcome

/-- Recovering a `None` `proto_type_node` (transform_plugin.py:95-101):
a non-`MemberExpr` prints and returns (`ok none`); otherwise
`lookup_member_expr` is called with no exception handling, so its errors
escape. -/
def protoResolve : ProtoExpr → Except PErr (Option BTI)
  | .memberExpr (some t) _ => .ok (some t)
  | .otherExpr (some t) => .ok (some t)
  | .otherExpr none => .ok none
  | .memberExpr none m => (lookupMemberExpr m).map some

/-- Recovering a `None` `attribute_type_node` (transform_plugin.py:103-113):
a non-`MemberExpr` prints and returns (`ok none`); otherwise
`lookup_member_expr` is called inside a `try` whose `except` clause names
the undefined `MemberLookupError`, so any raised exception escapes as
`NameError`. -/
def attrResolve (ae : AttrExpr) : Option ANode → Except PErr (Option ANode)
  | some a => .ok (some a)
  | none =>
    match ae with
    | .memberExpr _ m =>
      match lookupMemberExpr m with
      | .error _ => .error .nameError
      | .ok t => .ok (some (.ti t))
    | _ => .ok none

/-- `transform_class_maker_callback` (transform_plugin.py:69-147), up to the
decision of which `TypeInfo`s to hand to `transform_type_info`.
`printedReturn` models a printed message followed by `return` with the class
untouched; `transformed p a i` models the call to `transform_type_info`.
A raised exception inside the `try` of lines 108-113 escapes as `NameError`
because the `except` clause names the undefined `MemberLookupError`; the
prototype lookup of line 101 is not guarded at all, so its exception
escapes unchanged. -/
def callback (finalIteration : Bool) (pe : ProtoExpr) (ae : AttrExpr)
    (initArgName : Option String) : Except PErr CbOutcome :=
  let init : Bool := initArgName = some "True"
  match attrNodeOf ae with
  | .error e => .error e
  | .ok attrNode0 =>
    if ¬ finalIteration ∧ (pe.node.isNone ∨ attrNode0.isNone) then
      .ok .deferred
    else
      match protoResolve pe with
      | .error e => .error e
      | .ok none => .ok (.printedReturn "No way to lookup prototype node.")
      | .ok (some protoNode) =>
        match attrResolve ae attrNode0 with
        | .error e => .error e
        | .ok none => .ok (.printedReturn "No way to lookup attribute_type node.")
        | .ok (some attrNode1) =>
          match attrNode1 with
          | .funcDef (.instanceTy t) => .ok (.transformed protoNode t init)
          | .funcDef .unbound =>
            if ¬ finalIteration then .ok .deferred
            else .ok (.printedReturn "Unable to find return type")
          | .funcDef .otherRet =>
            .ok (.printedReturn "Unable to determine the attribute type")
          | .ti t => .ok (.transformed protoNode t init)
          | .otherN => .ok (.printedReturn "Unable to determine the attribute type")

/-!
Model of `transform_type_info` (transform_plugin.py:150-241), the static
mirror of the runtime member enumeration.  A member's static type is
modelled by what the nested-transformation check reads of it.
-/

/-- A member's static type, as `transform_type_info` inspects it:
a mypy `Instance` exposes `.type.fullname`; `AnyType` makes that chain raise
`AttributeError` (caught and ignored); anything else also raises there
(caught, with a warning printed). -/
inductive SType : Type where
  | instOf (fullname : String) : SType
  | anyTy : SType
  | otherTy : SType
  deriving Repr, DecidableEq

/-- The `Instance` node written into the transformed symbol table:
the target `TypeInfo`'s fullname and the type arguments. -/
structure OutType : Type where
  fullname : String
  args : List SType
  deriving Repr, DecidableEq

/-- A node of the prototype's static symbol table, as the enumeration
distinguishes them: a variable with its type, or a `FuncDef`. -/
inductive SNodeA : Type where
  | var (ty : SType) : SNodeA
  | funcDef : SNodeA
  deriving Repr, DecidableEq

/-- The static registry `typeInfoByProtoTypeName`, keyed by the prototype's
fullname and mapping to the transformed class's `TypeInfo` fullname. -/
abbrev SRegistry : Type := List (String × String)

/-- The type given to one transformed member (transform_plugin.py:182-208):
a member whose type's fullname is registered gets `Instance(nested, [])`;
otherwise `Instance(attribute_type, typeArgs)` with the member's own type
as the single argument when the attribute type is generic. -/
def staticTransformMember (sreg : SRegistry) (attrFullname : String)
    (generic : Bool) (ty : SType) : OutType :=
  match ty with
  | .instOf t =>
    match Transform.alookup sreg t with
    | some nested => ⟨nested, []⟩
    | none => ⟨attrFullname, if generic then [ty] else []⟩
  | _ => ⟨attrFullname, if generic then [ty] else []⟩

/-- The member enumeration of `transform_type_info`
(transform_plugin.py:159-210): every name in the prototype's own symbol
table (a dict, so names are unique) that does not start with an underscore
and whose node is not a `FuncDef` is given a transformed type. -/
def staticTransform (sreg : SRegistry) (attrFullname : String) (generic : Bool)
    (names : List (String × SNodeA)) : List (String × OutType) :=
  names.filterMap fun m =>
    if Transform.startsUnderscore m.1 then none
    else
      match m.2 with
      | .funcDef => none
      | .var ty => some (m.1, staticTransformMember sreg attrFullname generic ty)

/-- `transformedNames`: the member names the plugin transforms. -/
def staticTransformedNames (names : List (String × SNodeA)) : List String :=
  names.filterMap fun m =>
    if Transform.startsUnderscore m.1 then none
    else
      match m.2 with
      | .funcDef => none
      | .var _ => some m.1

end Plugin

namespace Bridge

/-!
A common description of a prototype class from which both the runtime view
(`dir()` members, attrs fields) and the static view (the class's own symbol
table) are derived, for comparing the two member enumerations.
-/

/-- One member of the prototype's class body: a plain variable (with its
runtime value, its static type, and whether it is an attrs field), or a
plain `def` (a `FuncDef` statically, a function at runtime). -/
inductive BodyMem : Type where
  | dataVar (v : Transform.PyValue) (ty : Plugin.SType) (isAttrsField : Bool) : BodyMem
  | methodDef : BodyMem
  deriving Repr, DecidableEq

/-- A prototype class described once for both views: its qualified name,
its own class-body members, and the further members `dir()` reports from
base classes (which the static symbol table of the class itself lacks). -/
structure ProtoDescr : Type where
  qualName : String
  body : List (String × BodyMem)
  inherited : List (String × Transform.PyValue)
  deriving Repr, DecidableEq

/-- The static symbol table of the prototype (its own names only). -/
def staticNamesTable (pd : ProtoDescr) : List (String × Plugin.SNodeA) :=
  pd.body.map fun m =>
    (m.1,
      match m.2 with
      | .dataVar _ ty _ => .var ty
      | .methodDef => .funcDef)

/-- The runtime introspection view of the prototype: `dir()` lists body and
inherited members (a plain `def` is seen as a function value), and the attrs
fields are the body variables marked as such. -/
def runtimeProtoClass (pd : ProtoDescr) : Transform.ProtoClass :=
  { qualName := pd.qualName
    dirMembers :=
      (pd.body.map fun m =>
        (m.1,
          match m.2 with
          | .dataVar v _ _ => v
          | .methodDef => Transform.PyValue.fn)) ++ pd.inherited
    attrsFields :=
      pd.body.filterMap fun m =>
        match m.2 with
        | .dataVar _ _ true => some m.1
        | _ => none }

/-- The names the runtime decorator transforms: the recorded class-variable
names together with the recorded instance-variable names. -/
def runtimeTransformedNames (pd : ProtoDescr) (hasName init : Bool)
    (cls : Transform.InputCls) (reg : Transform.Registry) : List String :=
  let tc := (Transform.transformCall (runtimeProtoClass pd) hasName init cls reg).1
  tc.transformAllVars ++ tc.transformVars

end Bridge

namespace Claims

/-!
Claim-side definitions: statements of what the spec's sentences assert,
written from the claims' words, to be compared with the embedded code.
-/

/-- C1 (amended): the value the decorator is claimed to set for a
qualifying member — the attribute maker applied to the member's value,
except that a member whose type's qualified name is already registered is
assigned the registered transformed class constructed from the member's
value and its name. -/
def c1ExpectedValue (reg : Transform.Registry) (hasName : Bool)
    (clsName n : String) (v : Transform.PyValue) : Transform.PyValue :=
  match Transform.alookup reg v.typeName with
  | some mc => .inst mc.qualName v n
  | none =>
    if hasName then .made (some (clsName ++ "." ++ n)) v else .made none v

/-- C1 (amended): exactly one attribute per member of the prototype whose
name does not start with an underscore, is not an attrs field, and is not a
function or method. -/
def c1ExpectedAttrs (pt : Transform.ProtoClass) (hasName : Bool)
    (clsName : String) (reg : Transform.Registry) :
    List (String × Transform.PyValue) :=
  pt.dirMembers.filterMap fun m =>
    if Transform.startsUnderscore m.1 ∨ m.1 ∈ pt.attrsFields ∨ m.2.isFunction then none
    else some (m.1, c1ExpectedValue reg hasName clsName m.1 m.2)

/-- C7: the first parameter name of the attribute maker (for a class, the
first parameter of its `__init__`). -/
def firstParamName : Transform.MakerDescr → Option String
  | .cls initParams => initParams.head?
  | .callable params => params.head?

end Claims

namespace Transform

/-! ### Helper lemmas about the runtime model -/

theorem classLoop_fst (reg : Registry) (hasName : Bool) (clsName : String)
    (af : List String) (l : List (String × PyValue)) :
    (classLoop reg hasName clsName af l).1 =
      l.filterMap fun m =>
        if startsUnderscore m.1 ∨ m.1 ∈ af ∨ m.2.isFunction then none
        else some (m.1, classMemberValue reg hasName clsName m.1 m.2) := by
  induction l with
  | nil => rfl
  | cons hd tl ih =>
    obtain ⟨n, v⟩ := hd
    by_cases h : startsUnderscore n ∨ n ∈ af ∨ v.isFunction
    · simp [classLoop, h, ih, List.filterMap_cons]
    · simp [classLoop, h, ih, List.filterMap_cons]

theorem classLoop_snd (reg : Registry) (hasName : Bool) (clsName : String)
    (af : List String) (l : List (String × PyValue)) :
    (classLoop reg hasName clsName af l).2 =
      (classLoop reg hasName clsName af l).1.map Prod.fst := by
  induction l with
  | nil => rfl
  | cons hd tl ih =>
    obtain ⟨n, v⟩ := hd
    by_cases h : startsUnderscore n ∨ n ∈ af ∨ v.isFunction
    · simp [classLoop, h, ih]
    · simp [classLoop, h, ih]

theorem classMemberValue_eq_expected (reg : Registry) (hasName : Bool)
    (clsName n : String) (v : PyValue) :
    classMemberValue reg hasName clsName n v =
      Claims.c1ExpectedValue reg hasName clsName n v := by
  unfold classMemberValue Claims.c1ExpectedValue transformMember mkNodeName
  cases alookup reg v.typeName <;> cases hasName <;> simp

theorem eq_of_mem_of_nodupKeys {α : Type} :
    ∀ {l : List (String × α)}, (l.map Prod.fst).Nodup →
      ∀ {n : String} {a b : α}, (n, a) ∈ l → (n, b) ∈ l → a = b := by
  intro l
  induction l with
  | nil => intro _ n a b ha; cases ha
  | cons hd tl ih =>
    intro hnd n a b ha hb
    obtain ⟨k, v⟩ := hd
    simp only [List.map_cons, List.nodup_cons] at hnd
    rcases List.mem_cons.mp ha with h1 | h1 <;>
      rcases List.mem_cons.mp hb with h2 | h2
    · cases h1; cases h2; rfl
    · cases h1
      exact absurd (List.mem_map_of_mem Prod.fst h2) (by simpa using hnd.1)
    · cases h2
      exact absurd (List.mem_map_of_mem Prod.fst h1) (by simpa using hnd.1)
    · exact ih hnd.2 h1 h2

theorem alookup_eq_some_of_mem {α : Type} :
    ∀ {l : List (String × α)}, (l.map Prod.fst).Nodup →
      ∀ {n : String} {a : α}, (n, a) ∈ l → alookup l n = some a := by
  intro l
  induction l with
  | nil => intro _ n a ha; cases ha
  | cons hd tl ih =>
    intro hnd n a ha
    obtain ⟨k, v⟩ := hd
    simp only [List.map_cons, List.nodup_cons] at hnd
    rcases List.mem_cons.mp ha with h1 | h1
    · cases h1; simp [alookup]
    · have hk : k ≠ n := by
        intro hkn
        subst hkn
        exact hnd.1 (by simpa using List.mem_map_of_mem Prod.fst h1)
      simp [alookup, hk, ih hnd.2 h1]

theorem alookup_map_pair {α : Type} (f : String → α) :
    ∀ (l : List String), l.Nodup → ∀ n ∈ l,
      alookup (l.map fun x => (x, f x)) n = some (f n) := by
  intro l hl n hn
  apply alookup_eq_some_of_mem
  · have hmap : ∀ (t : List String), (t.map fun x => (x, f x)).map Prod.fst = t := by
      intro t
      induction t with
      | nil => rfl
      | cons a r ih => simp [ih]
    rw [hmap]; exact hl
  · exact List.mem_map_of_mem _ hn

theorem mapM_option_eq_map {α β : Type} (h : α → Option β) (g : α → β) :
    ∀ (l : List α), (∀ a ∈ l, h a = some (g a)) →
      l.mapM h = some (l.map g) := by
  intro l
  induction l with
  | nil => intro _; rfl
  | cons a tl ih =>
    intro hl
    simp only [List.mapM_cons, hl a (List.mem_cons_self a tl),
      ih fun x hx => hl x (List.mem_cons_of_mem a hx)]
    rfl

theorem memberAttrs_expected (pt : ProtoClass) (hasName init : Bool)
    (cls : InputCls) (reg : Registry) :
    (transformCall pt hasName init cls reg).1.memberAttrs =
      Claims.c1ExpectedAttrs pt hasName cls.name reg := by
  show (classLoop reg hasName cls.name pt.attrsFields pt.dirMembers).1 = _
  rw [classLoop_fst]
  rfl

theorem alookup_expectedAttrs (reg : Registry) (hasName : Bool)
    (clsName : String) (af : List String) :
    ∀ {l : List (String × PyValue)}, (l.map Prod.fst).Nodup →
      ∀ {n : String} {v : PyValue}, (n, v) ∈ l →
        ¬(startsUnderscore n ∨ n ∈ af ∨ v.isFunction) →
        alookup
          (l.filterMap fun m =>
            if startsUnderscore m.1 ∨ m.1 ∈ af ∨ m.2.isFunction then none
            else some (m.1, Claims.c1ExpectedValue reg hasName clsName m.1 m.2))
          n =
        some (Claims.c1ExpectedValue reg hasName clsName n v) := by
  intro l
  induction l with
  | nil => intro _ n v hmem; cases hmem
  | cons hd tl ih =>
    intro hnd n v hmem hcond
    obtain ⟨k, w⟩ := hd
    simp only [List.map_cons, List.nodup_cons] at hnd
    rcases List.mem_cons.mp hmem with h1 | h1
    · cases h1
      simp only [List.filterMap_cons]
      rw [if_neg hcond]
      simp [alookup]
    · have hkn : k ≠ n := by
        intro hkn
        subst hkn
        exact hnd.1 (by simpa using List.mem_map_of_mem Prod.fst h1)
      simp only [List.filterMap_cons]
      by_cases hk : startsUnderscore k ∨ k ∈ af ∨ w.isFunction
      · rw [if_pos hk]
        exact ih hnd.2 h1 hcond
      · rw [if_neg hk]
        simp only [alookup, if_neg hkn]
        exact ih hnd.2 h1 hcond

end Transform

/-! ### Claim theorems -/

/-- C1 (corrected).  Applying the `Transform` decorator sets on the
decorated class exactly one attribute for each member of the prototype
whose name does not start with an underscore, is not an attrs field, and
is not a function or method; each such attribute's value is the attribute
maker applied to that prototype member's value, **except** that a member
whose type's qualified name is already in `classByProtoTypeName` is
assigned the registered transformed class constructed from the member's
value and its name; and the decorator returns the decorated class. -/
theorem c1_member_attributes (pt : Transform.ProtoClass)
    (hasName init : Bool) (cls : Transform.InputCls) (reg : Transform.Registry) :
    (Transform.transformCall pt hasName init cls reg).1.memberAttrs =
      Claims.c1ExpectedAttrs pt hasName cls.name reg ∧
    (Transform.transformCall pt hasName init cls reg).1.name = cls.name ∧
    (Transform.transformCall pt hasName init cls reg).1.qualName = cls.qualName :=
  ⟨Transform.memberAttrs_expected pt hasName init cls reg, rfl, rfl⟩

/-- C1, counterexample to the claim as stated.  With
`classByProtoTypeName = {"m.Inner": InnerT}` and a prototype member `x` of
type `m.Inner`, the decorator assigns `InnerT(value, "x")` — not the
attribute maker's output (`made none value`, the only value a maker without
a `name` parameter can produce from this member). -/
theorem c1_member_attributes_counterexample :
    Transform.alookup
      (Transform.transformCall
        (Transform.ProtoClass.mk "m.P1"
          [("x", Transform.PyValue.atom "m.Inner" 0)] [])
        false false (Transform.InputCls.mk "T1" "m.T1")
        [("m.Inner",
          Transform.TClass.mk "InnerT" "m.InnerT" [] [] [] false "m.Inner")]).1.memberAttrs
      "x" =
      some (Transform.PyValue.inst "m.InnerT" (Transform.PyValue.atom "m.Inner" 0) "x") ∧
    ¬ Transform.alookup
        (Transform.transformCall
          (Transform.ProtoClass.mk "m.P1"
            [("x", Transform.PyValue.atom "m.Inner" 0)] [])
          false false (Transform.InputCls.mk "T1" "m.T1")
          [("m.Inner",
            Transform.TClass.mk "InnerT" "m.InnerT" [] [] [] false "m.Inner")]).1.memberAttrs
        "x" =
      some (Transform.PyValue.made none (Transform.PyValue.atom "m.Inner" 0)) := by
  decide

/-- C8.  After the decorator runs, `__transform_vars__` is exactly the
prototype's attrs field list, `__transform_all_vars__` is exactly the list
of names given class-level attributes, and no attrs field appears among the
class-level names. -/
theorem c8_recorded_variable_lists (pt : Transform.ProtoClass)
    (hasName init : Bool) (cls : Transform.InputCls) (reg : Transform.Registry) :
    (Transform.transformCall pt hasName init cls reg).1.transformVars =
      pt.attrsFields ∧
    (Transform.transformCall pt hasName init cls reg).1.transformAllVars =
      (Transform.transformCall pt hasName init cls reg).1.memberAttrs.map Prod.fst ∧
    (Transform.transformCall pt hasName init cls reg).1.transformAllVars.all
      (fun n => !(pt.attrsFields.contains n)) = true := by
  refine ⟨rfl, Transform.classLoop_snd reg hasName cls.name pt.attrsFields pt.dirMembers, ?_⟩
  rw [List.all_eq_true]
  intro n hn
  have hn' : n ∈ (Transform.classLoop reg hasName cls.name pt.attrsFields
      pt.dirMembers).1.map Prod.fst := by
    rw [← Transform.classLoop_snd]; exact hn
  rw [Transform.classLoop_fst] at hn'
  rcases List.mem_map.mp hn' with ⟨m, hm, hfst⟩
  rcases List.mem_filterMap.mp hm with ⟨a, _, ha⟩
  by_cases hc : Transform.startsUnderscore a.1 ∨ a.1 ∈ pt.attrsFields ∨ a.2.isFunction
  · rw [if_pos hc] at ha; cases ha
  · rw [if_neg hc] at ha
    have : a.1 = n := by cases ha; exact hfst
    subst this
    push_neg at hc
    simpa using hc.2.1

/-- C3.  After the decorator transforms prototype `pt`, the global registry
maps `pt`'s fully qualified name to the transformed class; and in a later
transformation, a qualifying member whose value's type has that qualified
name is assigned the registered transformed class constructed from the
member's value and its name, instead of the attribute maker's output. -/
theorem c3_registry_and_nested_reuse (pt : Transform.ProtoClass)
    (hasName init : Bool) (cls : Transform.InputCls) (reg : Transform.Registry)
    (pt' : Transform.ProtoClass) (hasName' init' : Bool)
    (cls' : Transform.InputCls) (n : String) (v : Transform.PyValue)
    (hmem : (n, v) ∈ pt'.dirMembers)
    (hnodup : (pt'.dirMembers.map Prod.fst).Nodup)
    (hus : Transform.startsUnderscore n = false)
    (haf : n ∉ pt'.attrsFields)
    (hfn : v.isFunction = false)
    (htn : v.typeName = pt.qualName) :
    Transform.alookup (Transform.transformCall pt hasName init cls reg).2
      pt.qualName = some (Transform.transformCall pt hasName init cls reg).1 ∧
    Transform.alookup
      (Transform.transformCall pt' hasName' init' cls'
        (Transform.transformCall pt hasName init cls reg).2).1.memberAttrs n =
      some (Transform.PyValue.inst
        (Transform.transformCall pt hasName init cls reg).1.qualName v n) := by
  constructor
  · show Transform.alookup
      ((pt.qualName, (Transform.transformCall pt hasName init cls reg).1) :: reg)
      pt.qualName = _
    simp [Transform.alookup]
  · rw [Transform.memberAttrs_expected]
    unfold Claims.c1ExpectedAttrs
    rw [Transform.alookup_expectedAttrs _ hasName' cls'.name pt'.attrsFields
      hnodup hmem (by simp [hus, haf, hfn])]
    unfold Claims.c1ExpectedValue
    rw [htn]
    have hreg : Transform.alookup
        (Transform.transformCall pt hasName init cls reg).2 pt.qualName =
        some (Transform.transformCall pt hasName init cls reg).1 := by
      show Transform.alookup
        ((pt.qualName, (Transform.transformCall pt hasName init cls reg).1) :: reg)
        pt.qualName = _
      simp [Transform.alookup]
    rw [hreg]

/-- C3 witness: a concrete two-step transformation in which the second
prototype's member `a` has the first prototype's type and receives the
registered transformed class. -/
theorem c3_registry_and_nested_reuse_witness :
    ("a", Transform.PyValue.atom "m.A" 0) ∈
      [("a", Transform.PyValue.atom "m.A" 0)] ∧
    (Transform.PyValue.atom "m.A" 0).typeName = "m.A" ∧
    (Transform.alookup
      (Transform.transformCall (Transform.ProtoClass.mk "m.A" [] [])
        false false (Transform.InputCls.mk "TA" "m.TA") []).2 "m.A" =
      some (Transform.transformCall (Transform.ProtoClass.mk "m.A" [] [])
        false false (Transform.InputCls.mk "TA" "m.TA") []).1 ∧
    Transform.alookup
      (Transform.transformCall
        (Transform.ProtoClass.mk "m.B" [("a", Transform.PyValue.atom "m.A" 0)] [])
        true true (Transform.InputCls.mk "TB" "m.TB")
        (Transform.transformCall (Transform.ProtoClass.mk "m.A" [] [])
          false false (Transform.InputCls.mk "TA" "m.TA") []).2).1.memberAttrs "a" =
      some (Transform.PyValue.inst
        (Transform.transformCall (Transform.ProtoClass.mk "m.A" [] [])
          false false (Transform.InputCls.mk "TA" "m.TA") []).1.qualName
        (Transform.PyValue.atom "m.A" 0) "a")) :=
  ⟨by decide, by decide,
    c3_registry_and_nested_reuse
      (Transform.ProtoClass.mk "m.A" [] []) false false
      (Transform.InputCls.mk "TA" "m.TA") []
      (Transform.ProtoClass.mk "m.B" [("a", Transform.PyValue.atom "m.A" 0)] [])
      true true (Transform.InputCls.mk "TB" "m.TB") "a"
      (Transform.PyValue.atom "m.A" 0)
      (by decide) (by decide) (by decide) (by decide) (by decide) (by decide)⟩

/-- C2 (corrected).  For a transformed class generated with `init=True`,
initializing an instance from a prototype value `p` and then calling
`GetProtoType` reconstructs a prototype value equal to `p` — provided no
instance variable's type is registered in `classByProtoTypeName` (a
registered member is replaced by the registered transformed class, which
has no `Get` method, so the reconstruction fails there). -/
theorem c2_roundtrip (pt : Transform.ProtoClass) (hasName : Bool)
    (clsName : String) (reg : Transform.Registry)
    (f : String → Transform.PyValue) (pfx : Option String)
    (hnodup : pt.attrsFields.Nodup)
    (hreg : ∀ n ∈ pt.attrsFields, Transform.alookup reg (f n).typeName = none) :
    Transform.GetProtoType pt
      ((Transform.transformInit pt hasName clsName reg
        (Transform.ProtoValue.mk pt.qualName
          (pt.attrsFields.map fun n => (n, f n))) pfx).getD []) =
      some (Transform.ProtoValue.mk pt.qualName
        (pt.attrsFields.map fun n => (n, f n))) := by
  have hget : ∀ n ∈ pt.attrsFields,
      Transform.pyGetAttr
        (Transform.ProtoValue.mk pt.qualName
          (pt.attrsFields.map fun x => (x, f x))) n = some (f n) := by
    intro n hn
    exact Transform.alookup_map_pair f pt.attrsFields hnodup n hn
  have hinit : Transform.transformInit pt hasName clsName reg
      (Transform.ProtoValue.mk pt.qualName
        (pt.attrsFields.map fun n => (n, f n))) pfx =
      some (pt.attrsFields.map fun n =>
        (n, Transform.initMemberValue reg hasName clsName n pfx (f n))) := by
    apply Transform.mapM_option_eq_map
    intro n hn
    rw [hget n hn]
    rfl
  rw [hinit]
  simp only [Option.getD_some]
  have hlook : ∀ n ∈ pt.attrsFields,
      Transform.alookup
        (pt.attrsFields.map fun x =>
          (x, Transform.initMemberValue reg hasName clsName x pfx (f x))) n =
      some (Transform.initMemberValue reg hasName clsName n pfx (f n)) := by
    intro n hn
    exact Transform.alookup_map_pair _ pt.attrsFields hnodup n hn
  have hval : ∀ n ∈ pt.attrsFields,
      (Transform.initMemberValue reg hasName clsName n pfx (f n)).get =
        some (f n) := by
    intro n hn
    unfold Transform.initMemberValue
    rw [hreg n hn]
    unfold Transform.transformMember
    cases hasName <;> simp [Transform.PyValue.get]
  unfold Transform.GetProtoType
  rw [Transform.mapM_option_eq_map _ (fun n => (n, f n)) pt.attrsFields
    (fun n hn => by rw [hlook n hn]; simp [hval n hn])]
  rfl

/-- C2, counterexample to the claim as stated.  The prototype's field `x`
has a type registered in `classByProtoTypeName`, so `__init__` stores an
instance of the registered transformed class; that instance has no `Get`
method, and `GetProtoType` fails instead of returning a value equal to the
prototype value. -/
theorem c2_roundtrip_counterexample :
    (Transform.transformInit (Transform.ProtoClass.mk "m.P2" [] ["x"]) true "T2"
        [("m.Inner", Transform.TClass.mk "InnerT" "m.InnerT" [] [] [] false "m.Inner")]
        (Transform.ProtoValue.mk "m.P2" [("x", Transform.PyValue.atom "m.Inner" 0)])
        none).isSome = true ∧
    Transform.GetProtoType (Transform.ProtoClass.mk "m.P2" [] ["x"])
      ((Transform.transformInit (Transform.ProtoClass.mk "m.P2" [] ["x"]) true "T2"
        [("m.Inner", Transform.TClass.mk "InnerT" "m.InnerT" [] [] [] false "m.Inner")]
        (Transform.ProtoValue.mk "m.P2" [("x", Transform.PyValue.atom "m.Inner" 0)])
        none).getD []) = none := by
  decide

/-- C2 witness: a one-field prototype with an unregistered field type
round-trips through `__init__` and `GetProtoType`. -/
theorem c2_roundtrip_witness :
    (["x"] : List String).Nodup ∧
    Transform.GetProtoType (Transform.ProtoClass.mk "m.P3" [] ["x"])
      ((Transform.transformInit (Transform.ProtoClass.mk "m.P3" [] ["x"]) true "T3"
        []
        (Transform.ProtoValue.mk "m.P3"
          [("x", Transform.PyValue.atom "builtins.int" 5)])
        none).getD []) =
      some (Transform.ProtoValue.mk "m.P3"
        [("x", Transform.PyValue.atom "builtins.int" 5)]) :=
  ⟨by decide,
    c2_roundtrip (Transform.ProtoClass.mk "m.P3" [] ["x"]) true "T3" []
      (fun _ => Transform.PyValue.atom "builtins.int" 5) none
      (by decide) (by decide)⟩

/-- C7.  When the attribute maker's first parameter is named `name` (for a
class, the first parameter of its `__init__`), a transformed member's maker
is called with the dotted name `ClassName.memberName`, or
`ClassName.instanceName.memberName` when an instance name is supplied;
otherwise any supplied instance name is ignored and the maker is called
with the member value alone. -/
theorem c7_dotted_node_names (m : Transform.MakerDescr) (clsName n : String)
    (iName : Option String) (v : Transform.PyValue) :
    Transform.transformMember (Transform.GetHasName m) clsName n iName v =
      if Claims.firstParamName m = some "name" then
        Transform.PyValue.made
          (some (match iName with
            | some i => clsName ++ "." ++ i ++ "." ++ n
            | none => clsName ++ "." ++ n)) v
      else Transform.PyValue.made none v := by
  cases m with
  | cls ps =>
    by_cases h : ps.head? = some "name" <;>
      simp [Transform.GetHasName, Claims.firstParamName,
        Transform.transformMember, Transform.mkNodeName, h]
  | callable ps =>
    by_cases h : ps.head? = some "name" <;>
      simp [Transform.GetHasName, Claims.firstParamName,
        Transform.transformMember, Transform.mkNodeName, h]

/-- C9.  `RegisterModel` raises `ValueError` exactly when the decorated
class's immediate base class is `object`; otherwise it records the class in
`modelByInterfaceName` under its base class's fully qualified name and
returns it unchanged. -/
theorem c9_register_model (m : Transform.ModelClass)
    (mreg : Transform.ModelRegistry) :
    ((∃ e, Transform.RegisterModel m mreg = .error e) ↔
      m.baseIsObject = true) ∧
    (m.baseIsObject = false →
      Transform.RegisterModel m mreg = .ok (m, (m.baseQualName, m) :: mreg) ∧
      Transform.alookup ((m.baseQualName, m) :: mreg) m.baseQualName = some m) := by
  unfold Transform.RegisterModel
  cases hb : m.baseIsObject <;> simp [hb, Transform.alookup]

/-- C9 witness: a model class with a proper base is registered under the
base's qualified name. -/
theorem c9_register_model_witness :
    (Transform.ModelClass.mk "m.Model" false "m.Iface").baseIsObject = false ∧
    Transform.RegisterModel (Transform.ModelClass.mk "m.Model" false "m.Iface") [] =
      .ok (Transform.ModelClass.mk "m.Model" false "m.Iface",
        [("m.Iface", Transform.ModelClass.mk "m.Model" false "m.Iface")]) :=
  ⟨by decide,
    ((c9_register_model (Transform.ModelClass.mk "m.Model" false "m.Iface") []).2
      (by decide)).1⟩

/-- C10.  For a prototype value member that exists, `GetMemberModel`
returns `None` exactly when the member's type is not a registered
transformed interface; a registered interface without a registered model
raises `RuntimeError`; otherwise the registered model class is returned. -/
theorem c10_get_member_model (reg : Transform.Registry)
    (mreg : Transform.ModelRegistry) (p : Transform.ProtoValue) (name : String)
    (v : Transform.PyValue) (hv : Transform.pyGetAttr p name = some v) :
    (Transform.GetMemberModel reg mreg p name = .ok none ↔
      Transform.alookup reg v.typeName = none) ∧
    (∀ iface, Transform.alookup reg v.typeName = some iface →
      (Transform.alookup mreg iface.qualName = none →
        Transform.GetMemberModel reg mreg p name =
          .error "Member interface is transformed without a registered model.") ∧
      (∀ mm, Transform.alookup mreg iface.qualName = some mm →
        Transform.GetMemberModel reg mreg p name = .ok (some mm))) := by
  unfold Transform.GetMemberModel
  simp only [hv]
  cases hr : Transform.alookup reg v.typeName with
  | none => simp [hr]
  | some iface =>
    simp only [hr]
    cases hm : Transform.alookup mreg iface.qualName with
    | none =>
      simp only [hm]
      refine ⟨by simp, ?_⟩
      intro iface' hif
      injection hif with hif'
      subst hif'
      refine ⟨fun _ => by simp, fun mm hmm => ?_⟩
      rw [hm] at hmm
      cases hmm
    | some mm =>
      simp only [hm]
      refine ⟨by simp, ?_⟩
      intro iface' hif
      injection hif with hif'
      subst hif'
      refine ⟨fun hnone => ?_, fun mm' hmm => ?_⟩
      · rw [hm] at hnone
        cases hnone
      · rw [hm] at hmm
        injection hmm with hmm'
        subst hmm'
        simp

/-- `proto_type.node` being resolved makes `protoResolve` return it. -/
theorem plugin_protoResolve_node_some (pe : Plugin.ProtoExpr) (t : Plugin.BTI)
    (h : pe.node = some t) : Plugin.protoResolve pe = .ok (some t) := by
  cases pe <;> simp_all [Plugin.ProtoExpr.node, Plugin.protoResolve]

/-- C5.  On a non-final checker iteration, an unresolved prototype or
attribute-type node (`None`, or a function whose return type is still
unbound) makes the callback defer; on the final iteration the callback
never defers, so missing information falls through to the failure paths. -/
theorem c5_deferral :
    (∀ (pe : Plugin.ProtoExpr) (ae : Plugin.AttrExpr) (i : Option String)
        (an : Option Plugin.ANode),
      Plugin.attrNodeOf ae = .ok an →
      (pe.node = none ∨ an = none) →
      Plugin.callback false pe ae i = .ok .deferred) ∧
    (∀ (pe : Plugin.ProtoExpr) (t : Plugin.BTI) (ae : Plugin.AttrExpr)
        (i : Option String),
      pe.node = some t →
      Plugin.attrNodeOf ae = .ok (some (.funcDef .unbound)) →
      Plugin.callback false pe ae i = .ok .deferred) ∧
    (∀ (pe : Plugin.ProtoExpr) (ae : Plugin.AttrExpr) (i : Option String),
      Plugin.callback true pe ae i ≠ .ok .deferred) := by
  refine ⟨?_, ?_, ?_⟩
  · intro pe ae i an hae hnone
    rcases hnone with h | h <;> simp [Plugin.callback, hae, h]
  · intro pe t ae i hpe hae
    simp [Plugin.callback, hae, hpe,
      plugin_protoResolve_node_some pe t hpe, Plugin.attrResolve]
  · intro pe ae i
    cases hae : Plugin.attrNodeOf ae with
    | error e => simp [Plugin.callback, hae]
    | ok an =>
      cases hp : Plugin.protoResolve pe with
      | error e => simp [Plugin.callback, hae, hp]
      | ok po =>
        cases po with
        | none => simp [Plugin.callback, hae, hp]
        | some pn =>
          cases har : Plugin.attrResolve ae an with
          | error e => simp [Plugin.callback, hae, hp, har]
          | ok ao =>
            cases ao with
            | none => simp [Plugin.callback, hae, hp, har]
            | some an1 =>
              cases an1 with
              | ti t => simp [Plugin.callback, hae, hp, har]
              | funcDef r =>
                cases r with
                | instanceTy t => simp [Plugin.callback, hae, hp, har]
                | unbound => simp [Plugin.callback, hae, hp, har]
                | otherRet => simp [Plugin.callback, hae, hp, har]
              | otherN => simp [Plugin.callback, hae, hp, har]

/-- C5 witness: a non-final iteration with both argument nodes unresolved
defers. -/
theorem c5_deferral_witness :
    Plugin.attrNodeOf (Plugin.AttrExpr.otherExpr none) = .ok none ∧
    Plugin.callback false (Plugin.ProtoExpr.otherExpr none)
      (Plugin.AttrExpr.otherExpr none) none = .ok .deferred :=
  ⟨rfl,
    c5_deferral.1 (Plugin.ProtoExpr.otherExpr none)
      (Plugin.AttrExpr.otherExpr none) none none rfl (Or.inl rfl)⟩

/-- C6 (code bug).  A member lookup that raises does **not** degrade to a
reported no-op: on the attribute-type side the `except` clause names the
undefined `MemberLookupError`, so the handler itself fails (`NameError`
escapes); on the prototype side the lookup is not guarded at all, so
`LookupMemberError` escapes.  Both evaluations below crash the callback on
a final iteration where the claim promises a printed message and an
unmodified class. -/
theorem c6_lookup_failure_crashes :
    Plugin.callback true
      (Plugin.ProtoExpr.otherExpr (some (Plugin.BTI.mk "m.Proto" "Proto" [])))
      (Plugin.AttrExpr.memberExpr none
        (Plugin.MExpr.mk (some (Plugin.BTI.mk "other.mod" "mod" [])) "Missing"))
      none = .error .nameError ∧
    Plugin.callback true
      (Plugin.ProtoExpr.memberExpr none
        (Plugin.MExpr.mk (some (Plugin.BTI.mk "other.mod" "mod" [])) "Missing"))
      (Plugin.AttrExpr.otherExpr
        (some (Plugin.ANode.ti (Plugin.BTI.mk "m.Attr" "Attr" []))))
      none = .error .lookupMemberError :=
  ⟨rfl, rfl⟩

/-- Membership in the static transformed-name list, in terms of the common
prototype description: exactly the non-underscore class-body variables. -/
theorem bridge_static_mem_iff (pd : Bridge.ProtoDescr) (nm : String) :
    nm ∈ Plugin.staticTransformedNames (Bridge.staticNamesTable pd) ↔
      (∃ v ty af, (nm, Bridge.BodyMem.dataVar v ty af) ∈ pd.body) ∧
        Transform.startsUnderscore nm = false := by
  unfold Plugin.staticTransformedNames Bridge.staticNamesTable
  constructor
  · intro h
    rcases List.mem_filterMap.mp h with ⟨a, ha, hfa⟩
    rcases List.mem_map.mp ha with ⟨m, hm, hma⟩
    obtain ⟨n0, b0⟩ := m
    cases b0 with
    | dataVar v ty af =>
      subst hma
      by_cases hu : Transform.startsUnderscore n0
      · rw [if_pos hu] at hfa; cases hfa
      · rw [if_neg hu] at hfa
        injection hfa with h1
        subst h1
        exact ⟨⟨v, ty, af, hm⟩, by simpa using hu⟩
    | methodDef =>
      subst hma
      by_cases hu : Transform.startsUnderscore n0
      · rw [if_pos hu] at hfa; cases hfa
      · rw [if_neg hu] at hfa; cases hfa
  · rintro ⟨⟨v, ty, af, hm⟩, hu⟩
    apply List.mem_filterMap.mpr
    refine ⟨(nm, Plugin.SNodeA.var ty),
      List.mem_map.mpr ⟨(nm, Bridge.BodyMem.dataVar v ty af), hm, rfl⟩, ?_⟩
    rw [if_neg (by simp [hu])]

/-- Membership in the runtime attrs-field list, in terms of the common
prototype description. -/
theorem bridge_attrs_mem_iff (pd : Bridge.ProtoDescr) (x : String) :
    x ∈ (Bridge.runtimeProtoClass pd).attrsFields ↔
      ∃ v ty, (x, Bridge.BodyMem.dataVar v ty true) ∈ pd.body := by
  show x ∈ pd.body.filterMap _ ↔ _
  constructor
  · intro h
    rcases List.mem_filterMap.mp h with ⟨m, hm, hma⟩
    obtain ⟨n0, b0⟩ := m
    cases b0 with
    | dataVar v ty af =>
      cases af with
      | false => cases hma
      | true =>
        injection hma with h1
        subst h1
        exact ⟨v, ty, hm⟩
    | methodDef => cases hma
  · rintro ⟨v, ty, hm⟩
    exact List.mem_filterMap.mpr ⟨(x, Bridge.BodyMem.dataVar v ty true), hm, rfl⟩

/-- Membership in `__transform_all_vars__`: exactly the `dir()` members
that pass the decorator's three skip tests. -/
theorem mem_transformAllVars_iff (pt : Transform.ProtoClass)
    (hasName init : Bool) (cls : Transform.InputCls) (reg : Transform.Registry)
    (x : String) :
    x ∈ (Transform.transformCall pt hasName init cls reg).1.transformAllVars ↔
      ∃ w, (x, w) ∈ pt.dirMembers ∧
        ¬(Transform.startsUnderscore x ∨ x ∈ pt.attrsFields ∨ w.isFunction) := by
  have h1 : (Transform.transformCall pt hasName init cls reg).1.transformAllVars =
      (pt.dirMembers.filterMap fun m =>
        if Transform.startsUnderscore m.1 ∨ m.1 ∈ pt.attrsFields ∨ m.2.isFunction
        then none
        else some (m.1,
          Transform.classMemberValue reg hasName cls.name m.1 m.2)).map Prod.fst := by
    show (Transform.classLoop reg hasName cls.name pt.attrsFields pt.dirMembers).2 = _
    rw [Transform.classLoop_snd, Transform.classLoop_fst]
  rw [h1]
  constructor
  · intro h
    rcases List.mem_map.mp h with ⟨q, hq, hqx⟩
    rcases List.mem_filterMap.mp hq with ⟨a, ha, hfa⟩
    obtain ⟨a1, a2⟩ := a
    by_cases hc : Transform.startsUnderscore a1 ∨ a1 ∈ pt.attrsFields ∨ a2.isFunction
    · rw [if_pos hc] at hfa; cases hfa
    · rw [if_neg hc] at hfa
      injection hfa with h2
      subst h2
      obtain rfl : a1 = x := hqx
      exact ⟨a2, ha, hc⟩
  · rintro ⟨w, hw, hc⟩
    apply List.mem_map.mpr
    refine ⟨(x, Transform.classMemberValue reg hasName cls.name x w), ?_, rfl⟩
    exact List.mem_filterMap.mpr ⟨(x, w), hw, by rw [if_neg hc]⟩

/-- The member-name agreement between the static and the runtime
enumeration, under the amending hypotheses. -/
theorem bridge_names_agree (pd : Bridge.ProtoDescr) (hasName init : Bool)
    (cls : Transform.InputCls) (reg : Transform.Registry)
    (hinh : pd.inherited = [])
    (hnodup : (pd.body.map Prod.fst).Nodup)
    (hnofn : pd.body.all (fun m =>
      match m.2 with
      | Bridge.BodyMem.dataVar v _ _ => !v.isFunction
      | Bridge.BodyMem.methodDef => true) = true)
    (husattrs : pd.body.all (fun m =>
      match m.2 with
      | Bridge.BodyMem.dataVar _ _ true => !(Transform.startsUnderscore m.1)
      | _ => true) = true)
    (nm : String) :
    nm ∈ Plugin.staticTransformedNames (Bridge.staticNamesTable pd) ↔
      nm ∈ Bridge.runtimeTransformedNames pd hasName init cls reg := by
  have hnofn' : ∀ m ∈ pd.body, ∀ v ty af,
      m.2 = Bridge.BodyMem.dataVar v ty af → v.isFunction = false := by
    intro m hm v ty af he
    have := List.all_eq_true.mp hnofn m hm
    rw [he] at this
    simpa using this
  have husattrs' : ∀ m ∈ pd.body, ∀ v ty,
      m.2 = Bridge.BodyMem.dataVar v ty true →
      Transform.startsUnderscore m.1 = false := by
    intro m hm v ty he
    have := List.all_eq_true.mp husattrs m hm
    rw [he] at this
    simpa using this
  have hdir : (Bridge.runtimeProtoClass pd).dirMembers =
      pd.body.map (fun m =>
        (m.1,
          match m.2 with
          | Bridge.BodyMem.dataVar v _ _ => v
          | Bridge.BodyMem.methodDef => Transform.PyValue.fn)) := by
    show pd.body.map _ ++ pd.inherited = _
    rw [hinh, List.append_nil]
  have hrt : Bridge.runtimeTransformedNames pd hasName init cls reg =
      (Transform.transformCall (Bridge.runtimeProtoClass pd) hasName init cls
        reg).1.transformAllVars ++ (Bridge.runtimeProtoClass pd).attrsFields := rfl
  rw [hrt, bridge_static_mem_iff, List.mem_append, mem_transformAllVars_iff]
  constructor
  · rintro ⟨⟨v, ty, af, hm⟩, hu⟩
    cases af with
    | true => exact Or.inr ((bridge_attrs_mem_iff pd nm).mpr ⟨v, ty, hm⟩)
    | false =>
      left
      refine ⟨v, ?_, ?_⟩
      · rw [hdir]
        exact List.mem_map.mpr ⟨(nm, Bridge.BodyMem.dataVar v ty false), hm, rfl⟩
      · intro hc
        rcases hc with hc | hc | hc
        · rw [hu] at hc; cases hc
        · rcases (bridge_attrs_mem_iff pd nm).mp hc with ⟨v', ty', hm'⟩
          have heq := Transform.eq_of_mem_of_nodupKeys hnodup hm hm'
          cases heq
        · rw [hnofn' (nm, Bridge.BodyMem.dataVar v ty false) hm v ty false rfl]
            at hc
          cases hc
  · rintro (⟨w, hw, hc⟩ | hattrs)
    · rw [hdir] at hw
      rcases List.mem_map.mp hw with ⟨m, hm, hmw⟩
      obtain ⟨n0, b0⟩ := m
      cases b0 with
      | dataVar v ty af =>
        injection hmw with h1 h2
        subst h1
        subst h2
        simp only [not_or] at hc
        exact ⟨⟨v, ty, af, hm⟩, by simpa using hc.1⟩
      | methodDef =>
        injection hmw with h1 h2
        subst h1
        subst h2
        exfalso
        exact hc (Or.inr (Or.inr (by simp [Transform.PyValue.isFunction])))
    · rcases (bridge_attrs_mem_iff pd nm).mp hattrs with ⟨v, ty, hm⟩
      exact ⟨⟨v, ty, true, hm⟩,
        husattrs' (nm, Bridge.BodyMem.dataVar v ty true) hm v ty rfl⟩

/-- C4 (corrected).  Provided the prototype's public members are all
declared in its own class body (none inherited), no class-body variable
holds a function value, and no attrs field name starts with an underscore,
the set of member names the mypy plugin transforms equals the set the
runtime decorator transforms; and a member whose type was previously
transformed is given the nested transformed type in both. -/
theorem c4_member_enumeration_agreement :
    (∀ (pd : Bridge.ProtoDescr) (hasName init : Bool)
        (cls : Transform.InputCls) (reg : Transform.Registry),
      pd.inherited = [] →
      (pd.body.map Prod.fst).Nodup →
      pd.body.all (fun m =>
        match m.2 with
        | Bridge.BodyMem.dataVar v _ _ => !v.isFunction
        | Bridge.BodyMem.methodDef => true) = true →
      pd.body.all (fun m =>
        match m.2 with
        | Bridge.BodyMem.dataVar _ _ true => !(Transform.startsUnderscore m.1)
        | _ => true) = true →
      ∀ nm, nm ∈ Plugin.staticTransformedNames (Bridge.staticNamesTable pd) ↔
        nm ∈ Bridge.runtimeTransformedNames pd hasName init cls reg) ∧
    (∀ (sreg : Plugin.SRegistry) (reg : Transform.Registry) (t sc : String)
        (rc : Transform.TClass) (attrF : String) (g hasName : Bool)
        (clsName nm : String) (v : Transform.PyValue),
      Transform.alookup sreg t = some sc →
      Transform.alookup reg v.typeName = some rc →
      Plugin.staticTransformMember sreg attrF g (Plugin.SType.instOf t) =
        Plugin.OutType.mk sc [] ∧
      Transform.classMemberValue reg hasName clsName nm v =
        Transform.PyValue.inst rc.qualName v nm) := by
  constructor
  · intro pd hasName init cls reg hinh hnodup hnofn husattrs nm
    exact bridge_names_agree pd hasName init cls reg hinh hnodup hnofn
      husattrs nm
  · intro sreg reg t sc rc attrF g hasName clsName nm v h1 h2
    constructor
    · simp [Plugin.staticTransformMember, h1]
    · simp [Transform.classMemberValue, h2]

/-- C4, counterexample to the claim as stated: a prototype with a single
inherited public data member `x`.  The runtime decorator transforms `x`
(it appears in `dir()`), but the static plugin does not (the class's own
symbol table lacks it). -/
theorem c4_member_enumeration_counterexample :
    "x" ∈ Bridge.runtimeTransformedNames
      (Bridge.ProtoDescr.mk "m.P4" []
        [("x", Transform.PyValue.atom "builtins.int" 0)])
      false false (Transform.InputCls.mk "T4" "m.T4") [] ∧
    "x" ∉ Plugin.staticTransformedNames
      (Bridge.staticNamesTable
        (Bridge.ProtoDescr.mk "m.P4" []
          [("x", Transform.PyValue.atom "builtins.int" 0)])) := by
  decide

/-- C4 witness: a body with an attrs field, a plain variable and a method
enumerates identically on both sides, and a registered member type is
rewritten to the registered class on both sides. -/
theorem c4_member_enumeration_agreement_witness :
    ((Bridge.ProtoDescr.mk "m.P5"
      [("x", Bridge.BodyMem.dataVar (Transform.PyValue.atom "builtins.int" 0)
        (Plugin.SType.instOf "builtins.int") true),
       ("y", Bridge.BodyMem.dataVar (Transform.PyValue.atom "builtins.str" 1)
        (Plugin.SType.instOf "builtins.str") false),
       ("f", Bridge.BodyMem.methodDef)] []).body.map Prod.fst).Nodup ∧
    ("y" ∈ Plugin.staticTransformedNames (Bridge.staticNamesTable
      (Bridge.ProtoDescr.mk "m.P5"
        [("x", Bridge.BodyMem.dataVar (Transform.PyValue.atom "builtins.int" 0)
          (Plugin.SType.instOf "builtins.int") true),
         ("y", Bridge.BodyMem.dataVar (Transform.PyValue.atom "builtins.str" 1)
          (Plugin.SType.instOf "builtins.str") false),
         ("f", Bridge.BodyMem.methodDef)] [])) ↔
     "y" ∈ Bridge.runtimeTransformedNames
      (Bridge.ProtoDescr.mk "m.P5"
        [("x", Bridge.BodyMem.dataVar (Transform.PyValue.atom "builtins.int" 0)
          (Plugin.SType.instOf "builtins.int") true),
         ("y", Bridge.BodyMem.dataVar (Transform.PyValue.atom "builtins.str" 1)
          (Plugin.SType.instOf "builtins.str") false),
         ("f", Bridge.BodyMem.methodDef)] [])
      true false (Transform.InputCls.mk "T5" "m.T5") []) ∧
    Plugin.staticTransformMember [("m.Inner", "m.TI")] "pex.Value" true
      (Plugin.SType.instOf "m.Inner") = Plugin.OutType.mk "m.TI" [] ∧
    Transform.classMemberValue
      [("m.Inner", Transform.TClass.mk "TI" "m.TI" [] [] [] false "m.Inner")]
      true "T" "x" (Transform.PyValue.atom "m.Inner" 0) =
      Transform.PyValue.inst "m.TI" (Transform.PyValue.atom "m.Inner" 0) "x" :=
  ⟨by decide,
    c4_member_enumeration_agreement.1
      (Bridge.ProtoDescr.mk "m.P5"
        [("x", Bridge.BodyMem.dataVar (Transform.PyValue.atom "builtins.int" 0)
          (Plugin.SType.instOf "builtins.int") true),
         ("y", Bridge.BodyMem.dataVar (Transform.PyValue.atom "builtins.str" 1)
          (Plugin.SType.instOf "builtins.str") false),
         ("f", Bridge.BodyMem.methodDef)] [])
      true false (Transform.InputCls.mk "T5" "m.T5") []
      rfl (by decide) (by decide) (by decide) "y",
    (c4_member_enumeration_agreement.2 [("m.Inner", "m.TI")]
      [("m.Inner", Transform.TClass.mk "TI" "m.TI" [] [] [] false "m.Inner")]
      "m.Inner" "m.TI"
      (Transform.TClass.mk "TI" "m.TI" [] [] [] false "m.Inner")
      "pex.Value" true true "T" "x" (Transform.PyValue.atom "m.Inner" 0)
      (by decide) (by decide)).1,
    (c4_member_enumeration_agreement.2 [("m.Inner", "m.TI")]
      [("m.Inner", Transform.TClass.mk "TI" "m.TI" [] [] [] false "m.Inner")]
      "m.Inner" "m.TI"
      (Transform.TClass.mk "TI" "m.TI" [] [] [] false "m.Inner")
      "pex.Value" true true "T" "x" (Transform.PyValue.atom "m.Inner" 0)
      (by decide) (by decide)).2⟩

/-- C10 witness: a member whose type is a registered interface with a
registered model yields that model. -/
theorem c10_get_member_model_witness :
    Transform.pyGetAttr
      (Transform.ProtoValue.mk "m.P" [("x", Transform.PyValue.atom "m.Inner" 0)])
      "x" = some (Transform.PyValue.atom "m.Inner" 0) ∧
    Transform.GetMemberModel
      [("m.Inner", Transform.TClass.mk "TI" "m.TI" [] [] [] false "m.Inner")]
      [("m.TI", Transform.ModelClass.mk "m.TIModel" false "m.TI")]
      (Transform.ProtoValue.mk "m.P" [("x", Transform.PyValue.atom "m.Inner" 0)])
      "x" = .ok (some (Transform.ModelClass.mk "m.TIModel" false "m.TI")) :=
  ⟨by decide,
    (((c10_get_member_model
      [("m.Inner", Transform.TClass.mk "TI" "m.TI" [] [] [] false "m.Inner")]
      [("m.TI", Transform.ModelClass.mk "m.TIModel" false "m.TI")]
      (Transform.ProtoValue.mk "m.P" [("x", Transform.PyValue.atom "m.Inner" 0)])
      "x" (Transform.PyValue.atom "m.Inner" 0) (by decide)).2
      (Transform.TClass.mk "TI" "m.TI" [] [] [] false "m.Inner")
      (by decide)).2
      (Transform.ModelClass.mk "m.TIModel" false "m.TI") (by decide))⟩
